import Mathlib

/-!
# Verification of the energy-storage-report pipeline

A shallow embedding of the two subsystems of the repository:

* the chart extraction and conversion code of `src/esr/simple.py`
  (the in-page extraction script's point mapper and title matcher,
  and `convert_to_dataframes`), and
* the dataset collation code of `src/esr/collate.py`
  (`EsrCollater` and its per-metric formatters).

Numeric page coordinates and chart values (JS numbers / Float64) are
modelled by `Rat`; CSV `value` payloads (Float64, never used in any
arithmetic or comparison by the code) are modelled by `Int`.
-/

namespace Esr

/-! ### Chart extraction: `src/esr/simple.py` -/

/-- The raw x-value of a Highcharts point: either a JS number or some other
JS value (a string category label, `null`, ...).  The extraction script
tests `typeof point.x === 'number'` before comparing against the epoch
threshold. -/
inductive XVal where
  | num (q : Rat)
  | other (s : String)
deriving DecidableEq

/-- The fixed epoch threshold of the extraction script
(`point.x > 1000000000000`, simple.py line 106). -/
def EPOCH_THRESHOLD : Rat := 1000000000000

/-- One raw Highcharts point as seen by the extraction script. -/
structure RawPoint where
  x : XVal
  y : Rat
  category : Option String
deriving DecidableEq

/-- One entry of the `data` array built by the extraction script's point
mapper (simple.py lines 99-116): `x` and `y` always, `datetime` only for
large numeric `x`, `category` only when present on the point. -/
structure DataPoint where
  x : XVal
  y : Rat
  datetime : Option Rat
  category : Option String
deriving DecidableEq

/-- simple.py lines 99-116: the point mapper.  `datetime` is set iff
`typeof point.x === 'number' && point.x > 1000000000000`; we carry the
epoch value itself in place of `new Date(point.x).toISOString()` (the
ISO rendering is an injective external conversion of that value). -/
def mapPoint (p : RawPoint) : DataPoint :=
  { x := p.x
    y := p.y
    datetime :=
      match p.x with
      | .num q => if EPOCH_THRESHOLD < q then some q else none
      | .other _ => none
    category := p.category }

/-- One row dict built by `convert_to_dataframes` (simple.py lines
163-180): `series_name` and `value` always; `datetime` or `x`; `category`
when present. -/
structure Row where
  series_name : String
  value : Rat
  datetime : Option Rat
  x : Option XVal
  category : Option String
deriving DecidableEq

/-- simple.py lines 165-180: the row for one point of one series.
`row['datetime']` is set when the point carries `datetime`, else
`row['x'] = point['x']`. -/
def rowOfPoint (sname : String) (p : DataPoint) : Row :=
  { series_name := sname
    value := p.y
    datetime := p.datetime
    x := match p.datetime with
         | some _ => none
         | none => some p.x
    category := p.category }

/-! ### Title matcher: the extraction script, simple.py lines 69-86 -/

/-- A `getBoundingClientRect` result (page coordinates, y grows downward). -/
structure Box where
  top : Rat
  left : Rat
  right : Rat
  bottom : Rat
deriving DecidableEq


/-- One candidate title element collected by the extraction script. -/
structure TitleInfo where
  text : String
  position : Box
deriving DecidableEq

/-- The vertical gap `chartRect.top - titleInfo.position.bottom`
(simple.py line 76). -/
def vgap (chartRect : Box) (t : TitleInfo) : Rat :=
  chartRect.top - t.position.bottom

/-- The horizontal overlap
`min(title.right, chart.right) - max(title.left, chart.left)`
(simple.py lines 77-78). -/
def hoverlap (chartRect : Box) (t : TitleInfo) : Rat :=
  min t.position.right chartRect.right - max t.position.left chartRect.left

/-- A candidate qualifies when its bottom edge is at or above the chart's
top edge, the vertical gap is strictly below 200 and the horizontal
overlap is strictly positive (simple.py lines 75-81). -/
def qualifies (chartRect : Box) (t : TitleInfo) : Bool :=
  t.position.bottom ≤ chartRect.top ∧
    vgap chartRect t < 200 ∧ 0 < hoverlap chartRect t

/-- `distance < bestDistance` where `bestDistance` starts at `Infinity`
(modelled by `none`). -/
def ltBest (d : Rat) : Option Rat → Bool
  | none => true
  | some b => d < b

/-- One iteration of the title loop of simple.py lines 73-86, acting on
the state `(bestTitle, bestDistance)`. -/
def findTitleStep (chartRect : Box) (st : String × Option Rat)
    (t : TitleInfo) : String × Option Rat :=
  if t.position.bottom ≤ chartRect.top then
    let distance := vgap chartRect t
    let overlap := hoverlap chartRect t
    if distance < 200 ∧ 0 < overlap ∧ ltBest distance st.2 then
      (t.text, some distance)
    else st
  else st

/-- simple.py lines 70-86: fold the candidate titles over the loop state,
starting from the fallback `'Chart ' + chartIndex` and an infinite best
distance. -/
def bestTitleFor (chartIndex : Nat) (chartRect : Box)
    (titles : List TitleInfo) : String × Option Rat :=
  titles.foldl (findTitleStep chartRect)
    ("Chart " ++ toString chartIndex, none)

/-- Specification-side selection: among qualifying candidates, the one
with the smallest vertical gap, earliest first on ties. -/
def chooseTitle (chartRect : Box) (titles : List TitleInfo) :
    Option TitleInfo :=
  (titles.filter (qualifies chartRect)).foldl
    (fun acc t =>
      match acc with
      | none => some t
      | some b => if vgap chartRect t < vgap chartRect b then some t else acc)
    none

/-! ### `convert_to_dataframes`: simple.py lines 145-192 -/

/-- One extracted series: `name` plus the mapped point list. -/
structure SeriesData where
  name : String
  data : List DataPoint
deriving DecidableEq

/-- One extracted chart record (`chartData` of the extraction script). -/
structure ChartData where
  chartIndex : Nat
  title : String
  series : List SeriesData
deriving DecidableEq

/-- simple.py lines 161-180: the `all_data` list built by the nested
series/point loops (`all_data.append(row)`). -/
def chartRows (c : ChartData) : List Row :=
  c.series.foldl
    (fun acc s =>
      s.data.foldl (fun acc2 p => acc2 ++ [rowOfPoint s.name p]) acc)
    []

/-- simple.py line 186: `'datetime' in df.columns` — the column exists iff
some row dict carries the key. -/
def hasDatetimeCol (rows : List Row) : Bool :=
  rows.any (fun r => r.datetime.isSome)

/-- Comparison of rows by their `datetime` index value; pandas `sort_index`
puts missing values (`NaT`) last. -/
def dtLe (a b : Row) : Bool :=
  match a.datetime, b.datetime with
  | some x, some y => x ≤ y
  | some _, none => true
  | none, some _ => false
  | none, none => true

/-- Insert a row into a list sorted by `dtLe`. -/
def insertByDt (a : Row) : List Row → List Row
  | [] => [a]
  | b :: l => if dtLe a b then a :: b :: l else b :: insertByDt a l

/-- A sort by the `datetime` index, modelling
`df.set_index('datetime').sort_index()` (simple.py line 187).  The
concrete algorithm pandas uses is irrelevant to the claims; any
`datetime`-ordered rearrangement behaves the same on distinct keys. -/
def sortRowsByDt : List Row → List Row
  | [] => []
  | a :: l => insertByDt a (sortRowsByDt l)

/-- simple.py lines 182-189: the stored table of one chart — the flattened
rows, re-sorted by `datetime` when that column exists. -/
def finalizeRows (rows : List Row) : List Row :=
  if hasDatetimeCol rows then sortRowsByDt rows else rows

/-- The table `convert_to_dataframes` would store for one chart. -/
def tableOf (c : ChartData) : List Row :=
  finalizeRows (chartRows c)

/-- Python-dict assignment `dataframes[chart_title] = df`: replace the
value of an existing key in place, else append the new key. -/
def upsert (acc : List (String × List Row)) (k : String) (v : List Row) :
    List (String × List Row) :=
  match acc with
  | [] => [(k, v)]
  | (k', v') :: t => if k' = k then (k, v) :: t else (k', v') :: upsert t k v

/-- simple.py lines 155-192: `convert_to_dataframes`, as the association
list of `(title, table)` pairs of the `dataframes` dict (a chart whose
`all_data` is empty stores nothing). -/
def convert (charts : List ChartData) : List (String × List Row) :=
  charts.foldl
    (fun acc c =>
      if (chartRows c).isEmpty then acc
      else upsert acc c.title (tableOf c))
    []

/-- Dict lookup on the association list. -/
def lookupTable (k : String) : List (String × List Row) → Option (List Row)
  | [] => none
  | (k', v) :: t => if k' = k then some v else lookupTable k t

/-- The last element of a list satisfying a predicate. -/
def findLast (p : ChartData → Bool) : List ChartData → Option ChartData
  | [] => none
  | c :: l =>
    match findLast p l with
    | some c' => some c'
    | none => if p c then some c else none

/-- The charts that store a table under title `t`: title equal to `t` and
a non-empty row list. -/
def contributes (t : String) (c : ChartData) : Bool :=
  (c.title == t) && !(chartRows c).isEmpty

/-! ### Concrete extraction data for counterexamples and witnesses -/

/-- An ordinal-axis data point with x-index `i`. -/
def ordPoint (i : Rat) (v : Rat) : DataPoint :=
  mapPoint { x := XVal.num i, y := v, category := none }

/-- A datetime-axis data point at epoch-millisecond `e`
(`e > 1000000000000`). -/
def dtPoint (e : Rat) (v : Rat) : DataPoint :=
  mapPoint { x := XVal.num e, y := v, category := none }

/-- A chart with two series whose timestamps interleave: series "A" has
the later point, series "B" the earlier one. -/
def cMix : ChartData :=
  { chartIndex := 0
    title := "Mixed"
    series := [ { name := "A", data := [dtPoint 2000000000000 1] },
                { name := "B", data := [dtPoint 1500000000000 2] } ] }

/-- A chart whose only series has zero points. -/
def cEmpty : ChartData :=
  { chartIndex := 0
    title := "Empty"
    series := [ { name := "s", data := [] } ] }

/-- First chart of a duplicate-title pair. -/
def cDup1 : ChartData :=
  { chartIndex := 0
    title := "Dup"
    series := [ { name := "s", data := [ordPoint 1 1] } ] }

/-- Second chart of a duplicate-title pair, with different data. -/
def cDup2 : ChartData :=
  { chartIndex := 1
    title := "Dup"
    series := [ { name := "s", data := [ordPoint 2 2] } ] }

/-- An ordinal-axis chart used as a witness input. -/
def cOrd : ChartData :=
  { chartIndex := 0
    title := "Ord"
    series := [ { name := "u", data := [ordPoint 1 10, ordPoint 2 20] },
                { name := "v", data := [ordPoint 1 30] } ] }

/-! ### Collation: `src/esr/collate.py` -/

/-- collate.py lines 14-19: `AS_ENUM`. -/
def AS_ENUM : List String :=
  ["reg_down", "reg_up", "non_spin", "spin"]

/-- collate.py lines 21-34: `BID_ENUM`. -/
def BID_ENUM : List String :=
  ["[-$150,-$100]", "(-$100,-$50]", "(-$50,-$15]", "(-$15, $0]",
   "($0, $15]", "($15, $50]", "($50, $100]", "($100, $200]",
   "($200, $500]", "($500, $1000]", "($1000, $2000]", "self_schedule"]

/-- collate.py lines 36-41: `ENERGY_ENUM`. -/
def ENERGY_ENUM : List String :=
  ["ifm", "ruc", "fmm", "rtd"]

/-- collate.py lines 43-56: `OFFER_ENUM`. -/
def OFFER_ENUM : List String :=
  ["self_schedule", "[-$150,-$100]", "(-$100,-$50]", "(-$50,-$15]",
   "(-$15, $0]", "($0, $15]", "($15, $50]", "($50, $100]",
   "($100, $200]", "($200, $500]", "($500, $1000]", "($1000, $2000]"]

/-- collate.py lines 58-63: `SOC_ENUM`. -/
def SOC_ENUM : List String :=
  ["ifm", "ruc", "fmm", "rtd"]

/-- One parsed CSV row of a per-day extract file: columns
`datetime, series_name, value, category` (timestamps as epoch
microseconds; the Float64 `value` is an opaque payload, modelled `Int`). -/
structure CsvRow where
  datetime : Int
  series_name : String
  value : Int
  category : String
deriving DecidableEq

/-- One row of a formatted metric table: the canonical
`timestamp, market|service, volume` triple (`dim` stands for the
market-or-service column). -/
structure MetricRow where
  timestamp : Int
  dim : String
  volume : Int
deriving DecidableEq

/-- A whitespace character of the regex class `\s`. -/
def isWsChar (c : Char) : Bool :=
  c = ' ' ∨ c = '\t' ∨ c = '\n' ∨ c = '\r'

/-- Replace the first whitespace character (polars `str.replace` replaces
only the first regex match). -/
def replaceFirstWsAux : List Char → List Char
  | [] => []
  | c :: cs => if isWsChar c then '_' :: cs else c :: replaceFirstWsAux cs

/-- `.str.replace(r"\s", "_")` on one cell. -/
def replaceFirstWs (s : String) : String :=
  String.mk (replaceFirstWsAux s.data)

/-- `.str.to_lowercase()` on one cell. -/
def lowerStr (s : String) : String :=
  String.mk (s.data.map Char.toLower)

/-- `.replace({"self schedule": "self_schedule"})` on one cell: an exact
full-value mapping, not a substring substitution. -/
def selfScheduleFix (s : String) : String :=
  if s = "self schedule" then "self_schedule" else s

/-- A strict enum-cast failure: polars raises an invalid-operation error
carrying the offending literal; the valid domain is the target Enum
dtype's category list. -/
structure CastError where
  literal : String
  domain : List String
deriving DecidableEq

/-- `.cast(ENUM)` on one cell: strict by default — a value outside the
enumeration is an error, never dropped or coerced. -/
def castEnum (domain : List String) (s : String) : Except CastError String :=
  if s ∈ domain then .ok s else .error { literal := s, domain := domain }

/-- collate.py lines 83-105: `format_energy_awards` — lower-case,
underscore the first whitespace, cast into `ENERGY_ENUM`, rename to
`timestamp, market, volume` (the `category` column is dropped). -/
def format_energy_awards (rows : List CsvRow) :
    Except CastError (List MetricRow) :=
  rows.mapM (fun r =>
    (castEnum ENERGY_ENUM (replaceFirstWs (lowerStr r.series_name))).map
      (fun d => { timestamp := r.datetime, dim := d, volume := r.value }))

/-- collate.py lines 116-138: `format_ifm_as_awards` — same pipeline with
`AS_ENUM`, renaming to `timestamp, service, volume`. -/
def format_ifm_as_awards (rows : List CsvRow) :
    Except CastError (List MetricRow) :=
  rows.mapM (fun r =>
    (castEnum AS_ENUM (replaceFirstWs (lowerStr r.series_name))).map
      (fun d => { timestamp := r.datetime, dim := d, volume := r.value }))

/-- collate.py lines 140-162: `format_ifm_bids` — lower-case, map the
exact literal "self schedule" to `self_schedule` (no whitespace
underscoring), cast into `BID_ENUM`. -/
def format_ifm_bids (rows : List CsvRow) :
    Except CastError (List MetricRow) :=
  rows.mapM (fun r =>
    (castEnum BID_ENUM (selfScheduleFix (lowerStr r.series_name))).map
      (fun d => { timestamp := r.datetime, dim := d, volume := r.value }))

/-- collate.py lines 164-186: `format_ifm_offers` — as `format_ifm_bids`
with `OFFER_ENUM`. -/
def format_ifm_offers (rows : List CsvRow) :
    Except CastError (List MetricRow) :=
  rows.mapM (fun r =>
    (castEnum OFFER_ENUM (selfScheduleFix (lowerStr r.series_name))).map
      (fun d => { timestamp := r.datetime, dim := d, volume := r.value }))

/-- collate.py lines 188-210: `format_state_of_charge` — as
`format_ifm_bids` with `SOC_ENUM`, renaming to `timestamp, market,
volume`. -/
def format_state_of_charge (rows : List CsvRow) :
    Except CastError (List MetricRow) :=
  rows.mapM (fun r =>
    (castEnum SOC_ENUM (selfScheduleFix (lowerStr r.series_name))).map
      (fun d => { timestamp := r.datetime, dim := d, volume := r.value }))

/-- collate.py lines 107-108: `format_fmm_as_awards` delegates to
`format_ifm_as_awards`. -/
def format_fmm_as_awards (rows : List CsvRow) :
    Except CastError (List MetricRow) :=
  format_ifm_as_awards rows

/-- collate.py lines 110-111: `format_fmm_bids` delegates to
`format_ifm_bids`. -/
def format_fmm_bids (rows : List CsvRow) :
    Except CastError (List MetricRow) :=
  format_ifm_bids rows

/-- collate.py lines 113-114: `format_fmm_offers` delegates to
`format_ifm_offers`. -/
def format_fmm_offers (rows : List CsvRow) :
    Except CastError (List MetricRow) :=
  format_ifm_offers rows

/-- The closed set of metric kinds (the keys of `FILE_PATTERNS`). -/
inductive MetricKind where
  | fmm_as_awards
  | fmm_bids
  | fmm_offers
  | ifm_as_awards
  | ifm_bids
  | ifm_offers
  | energy_awards
  | state_of_charge
deriving DecidableEq

/-- The formatter of a metric kind (the `format_{dtype}` dispatch). -/
def formatOf : MetricKind → List CsvRow → Except CastError (List MetricRow)
  | .fmm_as_awards => format_fmm_as_awards
  | .fmm_bids => format_fmm_bids
  | .fmm_offers => format_fmm_offers
  | .ifm_as_awards => format_ifm_as_awards
  | .ifm_bids => format_ifm_bids
  | .ifm_offers => format_ifm_offers
  | .energy_awards => format_energy_awards
  | .state_of_charge => format_state_of_charge

/-- The enumeration a metric kind casts into. -/
def enumOf : MetricKind → List String
  | .fmm_as_awards => AS_ENUM
  | .fmm_bids => BID_ENUM
  | .fmm_offers => OFFER_ENUM
  | .ifm_as_awards => AS_ENUM
  | .ifm_bids => BID_ENUM
  | .ifm_offers => OFFER_ENUM
  | .energy_awards => ENERGY_ENUM
  | .state_of_charge => SOC_ENUM

/-- Normalization family A: lower-case, then underscore the first
whitespace character (energy awards and the AS-awards kinds). -/
def normUnderscore (s : String) : String :=
  replaceFirstWs (lowerStr s)

/-- Normalization family B: lower-case, then map the exact literal
"self schedule" to `self_schedule` (bids, offers, state of charge). -/
def normSelfSched (s : String) : String :=
  selfScheduleFix (lowerStr s)

/-- The series-name normalization a metric kind applies before the cast. -/
def normOf : MetricKind → String → String
  | .fmm_as_awards => normUnderscore
  | .fmm_bids => normSelfSched
  | .fmm_offers => normSelfSched
  | .ifm_as_awards => normUnderscore
  | .ifm_bids => normSelfSched
  | .ifm_offers => normSelfSched
  | .energy_awards => normUnderscore
  | .state_of_charge => normSelfSched

/-- The generic shape shared by all formatters: normalize the series
name, cast it into a domain, emit the canonical triple. -/
def formatWith (norm : String → String) (domain : List String)
    (rows : List CsvRow) : Except CastError (List MetricRow) :=
  rows.mapM (fun r =>
    (castEnum domain (norm r.series_name)).map
      (fun d => { timestamp := r.datetime, dim := d, volume := r.value }))

/-- Lexicographic comparison of character lists (the order polars uses on
string columns, restricted to the ASCII enum literals at hand). -/
def charsLe : List Char → List Char → Bool
  | [], _ => true
  | _ :: _, [] => false
  | c :: cs, d :: ds =>
    if c < d then true else if d < c then false else charsLe cs ds

/-- Lexicographic string comparison. -/
def strLe (a b : String) : Bool :=
  charsLe a.data b.data

/-- The sort key order of collate.py lines 247-252: by `timestamp`, then
by the market-or-service column (both `by`-lists name the same two
model columns). -/
def rowLe (a b : MetricRow) : Bool :=
  decide (a.timestamp < b.timestamp) ||
    (decide (a.timestamp = b.timestamp) && strLe a.dim b.dim)

/-- Insert a metric row into a list sorted by `rowLe`. -/
def insertRow (a : MetricRow) : List MetricRow → List MetricRow
  | [] => [a]
  | b :: l => if rowLe a b then a :: b :: l else b :: insertRow a l

/-- The final `.sort(by)` of collate.py line 252, as a concrete
key-comparison sort (polars compares only the `by` columns). -/
def sortTable : List MetricRow → List MetricRow
  | [] => []
  | a :: l => insertRow a (sortTable l)

/-- `pl.concat(frames, how="vertical").sort(by)`: vertical concatenation
of the per-file tables followed by the key sort. -/
def collateRows (tables : List (List MetricRow)) : List MetricRow :=
  sortTable tables.flatten

/-- collate.py lines 72-81: `FILE_PATTERNS`, keyed by dtype.  Each regex
is `(\d{8})` followed by the stored suffix; within the suffix the regex
`.` (before `csv`) matches any character, and `re.match` anchors at the
start of the name only. -/
def FILE_PATTERNS : List (String × String) :=
  [ ("fmm_as_awards", "_FMM AS Awards.csv"),
    ("fmm_bids", "_FMM Energy Bid In Capacity - Charge.csv"),
    ("fmm_offers", "_FMM Energy Bid In Capacity - Discharge.csv"),
    ("ifm_as_awards", "_IFM AS Awards.csv"),
    ("ifm_bids", "_IFM Energy Bid In Capacity - Charge.csv"),
    ("ifm_offers", "_IFM Energy Bid In Capacity - Discharge.csv"),
    ("energy_awards", "_Total Energy Awards.csv"),
    ("state_of_charge", "_Total State of Charge.csv") ]

/-- Dictionary lookup `self.FILE_PATTERNS[dtype]`. -/
def lookupKey (k : String) : List (String × String) → Option String
  | [] => none
  | (k', v) :: t => if k' = k then some v else lookupKey k t

/-- Match a literal pattern tail against the tail of a file name: the
regex metacharacter `.` matches any single character, everything else is
literal, and trailing characters of the name are allowed (`re.match` is
a prefix match). -/
def litMatch : List Char → List Char → Bool
  | [], _ => true
  | _ :: _, [] => false
  | p :: ps, c :: cs => (p == '.' || p == c) && litMatch ps cs

/-- `pattern.match(csv.name)` for a pattern `(\d{8})` + suffix: eight
leading digits, then the suffix. -/
def matchesPattern (suffix name : String) : Bool :=
  decide ((name.data.take 8).length = 8) &&
    (name.data.take 8).all Char.isDigit &&
    litMatch suffix.data (name.data.drop 8)

/-- One file of a data root: its name and its parsed CSV rows. -/
structure FsEntry where
  name : String
  rows : List CsvRow
deriving DecidableEq

/-- The failure modes of `EsrCollater.collate`. -/
inductive CollateError where
  | badDtype (valid : List String)
  | badBtype (valid : List String)
  | emptyConcat
  | cast (e : CastError)
deriving DecidableEq

/-- collate.py line 239: `getattr(self, f"format_{dtype}")`.  `collate`
reaches this only after the dtype was found in `FILE_PATTERNS`, so the
default branch is unreachable from `collate`. -/
def formatterByName (dtype : String) :
    List CsvRow → Except CastError (List MetricRow) :=
  if dtype = "fmm_as_awards" then format_fmm_as_awards
  else if dtype = "fmm_bids" then format_fmm_bids
  else if dtype = "fmm_offers" then format_fmm_offers
  else if dtype = "ifm_as_awards" then format_ifm_as_awards
  else if dtype = "ifm_bids" then format_ifm_bids
  else if dtype = "ifm_offers" then format_ifm_offers
  else if dtype = "energy_awards" then format_energy_awards
  else if dtype = "state_of_charge" then format_state_of_charge
  else fun _ => .error { literal := dtype, domain := [] }

/-- collate.py lines 218-252: `EsrCollater.collate`.  The two data roots
are passed as explicit file lists; the dtype is validated against
`FILE_PATTERNS` first, then the battery type selects the root, then the
matching files are formatted, vertically concatenated (`pl.concat` of an
empty list raises) and key-sorted. -/
def collate (dtype btype : String) (storageFs hybridFs : List FsEntry) :
    Except CollateError (List MetricRow) :=
  match lookupKey dtype FILE_PATTERNS with
  | none => .error (.badDtype (FILE_PATTERNS.map Prod.fst))
  | some pat =>
    match (if btype = "storage" then some storageFs
           else if btype = "hybrid" then some hybridFs
           else none) with
    | none => .error (.badBtype ["storage", "hybrid"])
    | some root =>
      let files := root.filter (fun e => matchesPattern pat e.name)
      if files.isEmpty then .error .emptyConcat
      else
        match files.mapM (fun e => formatterByName dtype e.rows) with
        | .error e => .error (.cast e)
        | .ok tables => .ok (collateRows tables)

/-! ### Concrete collation data for counterexamples and witnesses -/

/-- A CSV row with an empty category cell. -/
def csvRow (t : Int) (s : String) (v : Int) : CsvRow :=
  { datetime := t, series_name := s, value := v, category := "" }

/-- A metric row. -/
def mrow (t : Int) (d : String) (v : Int) : MetricRow :=
  { timestamp := t, dim := d, volume := v }

/-- C1: for every point, the emitted row carries exactly one of the
timestamp field (`datetime`) and the ordinal field (`x`) — never both,
never neither — and the timestamp is present iff the point's raw x is
numeric and strictly exceeds the epoch threshold 1000000000000; in the
ordinal case the ordinal equals the point's x. -/
theorem row_exactly_one_time_field (sname : String) (p : RawPoint) :
    (((rowOfPoint sname (mapPoint p)).datetime.isSome = true ∧
        (rowOfPoint sname (mapPoint p)).x = none) ∨
      ((rowOfPoint sname (mapPoint p)).datetime = none ∧
        (rowOfPoint sname (mapPoint p)).x = some p.x)) ∧
      ((rowOfPoint sname (mapPoint p)).datetime.isSome = true ↔
        ∃ q, p.x = XVal.num q ∧ EPOCH_THRESHOLD < q) := by
  cases hx : p.x with
  | num q =>
    by_cases hq : EPOCH_THRESHOLD < q
    · refine ⟨Or.inl ?_, ?_⟩
      · simp [rowOfPoint, mapPoint, hx, hq]
      · simp only [rowOfPoint, mapPoint, hx, if_pos hq]
        exact ⟨fun _ => ⟨q, rfl, hq⟩, fun _ => rfl⟩
    · refine ⟨Or.inr ?_, ?_⟩
      · simp [rowOfPoint, mapPoint, hx, hq]
      · simp only [rowOfPoint, mapPoint, hx, if_neg hq]
        constructor
        · intro h
          simp at h
        · rintro ⟨q', hq', hlt⟩
          cases hq'
          exact absurd hlt hq
  | other s =>
    refine ⟨Or.inr ?_, ?_⟩
    · simp [rowOfPoint, mapPoint, hx]
    · constructor
      · intro h
        simp [rowOfPoint, mapPoint, hx] at h
      · rintro ⟨q', hq', _⟩
        simp at hq'

/-- The loop state always corresponds to the spec-side accumulator. -/
theorem findTitle_fold_spec (chartRect : Box) (titles : List TitleInfo)
    (fb : String) (acc : Option TitleInfo) :
    titles.foldl (findTitleStep chartRect)
        (match acc with
         | none => (fb, none)
         | some b => (b.text, some (vgap chartRect b)))
      = (match (titles.filter (qualifies chartRect)).foldl
            (fun acc t =>
              match acc with
              | none => some t
              | some b =>
                if vgap chartRect t < vgap chartRect b then some t else acc)
            acc with
         | none => (fb, none)
         | some b => (b.text, some (vgap chartRect b))) := by
  induction titles generalizing acc with
  | nil => rfl
  | cons t ts ih =>
    by_cases hq : qualifies chartRect t = true
    · have hq' := hq
      simp only [qualifies, decide_eq_true_eq] at hq'
      obtain ⟨h1, h2, h3⟩ := hq'
      cases acc with
      | none =>
        simp only [List.foldl_cons, List.filter_cons, hq]
        have hstep : findTitleStep chartRect (fb, none) t
            = (t.text, some (vgap chartRect t)) := by
          simp [findTitleStep, h1, h2, h3, ltBest]
        rw [hstep]
        exact ih (some t)
      | some b =>
        simp only [List.foldl_cons, List.filter_cons, hq]
        by_cases hlt : vgap chartRect t < vgap chartRect b
        · have hstep : findTitleStep chartRect
              (b.text, some (vgap chartRect b)) t
              = (t.text, some (vgap chartRect t)) := by
            simp [findTitleStep, h1, h2, h3, ltBest, hlt]
          rw [hstep]
          have := ih (some t)
          simpa [hlt] using this
        · have hstep : findTitleStep chartRect
              (b.text, some (vgap chartRect b)) t
              = (b.text, some (vgap chartRect b)) := by
            simp [findTitleStep, ltBest, hlt]
          rw [hstep]
          have := ih (some b)
          simpa [hlt] using this
    · have hq' : qualifies chartRect t = false := by
        simpa using hq
      have hns : ∀ st : String × Option Rat,
          (st = match acc with
                | none => (fb, none)
                | some b => (b.text, some (vgap chartRect b))) →
          findTitleStep chartRect st t = st := by
        intro st hst
        simp only [qualifies, decide_eq_false_iff_not] at hq'
        by_cases h1 : t.position.bottom ≤ chartRect.top
        · have hcond : ¬(vgap chartRect t < 200 ∧ 0 < hoverlap chartRect t ∧
              ltBest (vgap chartRect t) st.2 = true) := by
            rintro ⟨ha, hb, -⟩
            exact hq' ⟨h1, ha, hb⟩
          simp only [findTitleStep, if_pos h1]
          rw [if_neg]
          simpa using hcond
        · simp [findTitleStep, h1]
      simp only [List.foldl_cons, List.filter_cons, hq']
      rw [hns _ rfl]
      simp only [Bool.false_eq_true, if_false]
      exact ih acc

/-- C2: the title loop returns the fallback label `"Chart " + chartIndex`
exactly when no candidate qualifies (bottom at-or-above top, gap < 200,
overlap > 0); otherwise it returns the text and gap of the qualifying
candidate with the smallest vertical gap, earliest first on ties, as
computed by `chooseTitle`. -/
theorem title_matcher_fallback_iff (chartIndex : Nat) (chartRect : Box)
    (titles : List TitleInfo) :
    bestTitleFor chartIndex chartRect titles
      = (match chooseTitle chartRect titles with
         | none => ("Chart " ++ toString chartIndex, none)
         | some b => (b.text, some (vgap chartRect b))) ∧
      (chooseTitle chartRect titles = none ↔
        ∀ t ∈ titles, qualifies chartRect t = false) := by
  constructor
  · exact findTitle_fold_spec chartRect titles
      ("Chart " ++ toString chartIndex) none
  · unfold chooseTitle
    constructor
    · intro hnone t ht
      by_contra hq
      have hq' : qualifies chartRect t = true := by
        simpa using hq
      have hmem : t ∈ titles.filter (qualifies chartRect) :=
        List.mem_filter.mpr ⟨ht, hq'⟩
      have hne : titles.filter (qualifies chartRect) ≠ [] :=
        List.ne_nil_of_mem hmem
      obtain ⟨a, as, hcons⟩ := List.exists_cons_of_ne_nil hne
      rw [hcons] at hnone
      have hsome : ∀ (l : List TitleInfo) (b : TitleInfo),
          (l.foldl (fun acc t =>
              match acc with
              | none => some t
              | some b =>
                if vgap chartRect t < vgap chartRect b then some t else acc)
            (some b)).isSome = true := by
        intro l
        induction l with
        | nil => intro b; rfl
        | cons x xs ihx =>
          intro b
          simp only [List.foldl_cons]
          by_cases hlt : vgap chartRect x < vgap chartRect b
          · simpa [hlt] using ihx x
          · simpa [hlt] using ihx b
      have := hsome as a
      simp only [List.foldl_cons] at hnone
      rw [hnone] at this
      simp at this
    · intro hall
      have : titles.filter (qualifies chartRect) = [] :=
        List.filter_eq_nil_iff.mpr (by
          intro t ht
          simp [hall t ht])
      rw [this]
      rfl

/-- Appending one mapped element at a time is mapping. -/
theorem foldl_append_map (l : List DataPoint) (f : DataPoint → Row)
    (acc : List Row) :
    l.foldl (fun a p => a ++ [f p]) acc = acc ++ l.map f := by
  induction l generalizing acc with
  | nil => simp
  | cons p ps ih => simp [ih]

/-- The nested series/point loops flatten to a join of per-series maps. -/
theorem chartRows_fold (ss : List SeriesData) (acc : List Row) :
    ss.foldl
        (fun acc s =>
          s.data.foldl (fun acc2 p => acc2 ++ [rowOfPoint s.name p]) acc)
        acc
      = acc ++ (ss.map (fun s => s.data.map (rowOfPoint s.name))).flatten := by
  induction ss generalizing acc with
  | nil => simp
  | cons s ss ih =>
    simp only [List.foldl_cons, List.map_cons, List.flatten]
    rw [foldl_append_map, ih, List.append_assoc]

/-- C8 (amended): the `all_data` rows of a chart are the series row lists
flattened in series order then point order; for a chart none of whose
rows carries a timestamp this flattened order is also the stored table
order (a chart with a timestamp column is re-sorted by timestamp before
storage, see the counterexample). -/
theorem chart_rows_flatten_order (c : ChartData) :
    chartRows c
        = (c.series.map (fun s => s.data.map (rowOfPoint s.name))).flatten ∧
      ((chartRows c).all (fun r => r.datetime.isNone) = true →
        tableOf c = chartRows c) := by
  constructor
  · unfold chartRows
    simpa using chartRows_fold c.series []
  · intro hall
    unfold tableOf finalizeRows
    have : hasDatetimeCol (chartRows c) = false := by
      unfold hasDatetimeCol
      rw [List.any_eq_false]
      intro r hr
      have := List.all_eq_true.mp hall r hr
      simp only [Option.isNone_iff_eq_none] at this
      simp [this]
    simp [this]

/-- Witness for C8 on a concrete ordinal-axis chart. -/
theorem chart_rows_flatten_order_witness :
    (chartRows cOrd).all (fun r => r.datetime.isNone) = true ∧
      tableOf cOrd = chartRows cOrd :=
  ⟨by decide, (chart_rows_flatten_order cOrd).2 (by decide)⟩

/-- C8 counterexample: a chart whose rows carry timestamps is re-sorted by
timestamp, so the stored table does not preserve series order — here the
single row of the second series "B" precedes the single row of the first
series "A". -/
theorem chart_rows_order_not_preserved_for_timestamps :
    cMix.series.map SeriesData.name = ["A", "B"] ∧
      (tableOf cMix).map Row.series_name = ["B", "A"] ∧
      tableOf cMix ≠ chartRows cMix := by
  refine ⟨by decide, by decide, by decide⟩

/-- Looking a key up after a dict assignment. -/
theorem lookupTable_upsert (acc : List (String × List Row)) (k k' : String)
    (v : List Row) :
    lookupTable k (upsert acc k' v)
      = if k' = k then some v else lookupTable k acc := by
  induction acc with
  | nil =>
    by_cases h : k' = k <;> simp [upsert, lookupTable, h]
  | cons a t ih =>
    obtain ⟨ka, va⟩ := a
    by_cases h1 : ka = k'
    · subst h1
      by_cases h2 : ka = k
      · subst h2
        simp [upsert, lookupTable]
      · simp [upsert, lookupTable, h2]
    · by_cases h2 : ka = k
      · subst h2
        have h3 : k' ≠ ka := fun h => h1 h.symm
        simp [upsert, lookupTable, h1, h3]
      · simp [upsert, lookupTable, h1, h2, ih]

/-- A dict assignment either keeps the key list or appends the new key. -/
theorem keys_upsert (acc : List (String × List Row)) (k : String)
    (v : List Row) :
    (upsert acc k v).map Prod.fst
      = if k ∈ acc.map Prod.fst then acc.map Prod.fst
        else acc.map Prod.fst ++ [k] := by
  induction acc with
  | nil => simp [upsert]
  | cons a t ih =>
    obtain ⟨ka, va⟩ := a
    by_cases h1 : ka = k
    · subst h1
      simp [upsert]
    · have h1' : ¬k = ka := fun h => h1 h.symm
      by_cases h2 : k ∈ t.map Prod.fst
      · simp [upsert, h1, h1', h2, ih]
      · simp [upsert, h1, h1', h2, ih]

/-- The dict built by the `convert_to_dataframes` loop maps each title to
the table of the last contributing chart. -/
theorem convert_fold_lookup (t : String) (l : List ChartData)
    (acc : List (String × List Row)) :
    lookupTable t
        (l.foldl
          (fun acc c =>
            if (chartRows c).isEmpty then acc
            else upsert acc c.title (tableOf c))
          acc)
      = (match findLast (contributes t) l with
         | some c => some (tableOf c)
         | none => lookupTable t acc) := by
  induction l generalizing acc with
  | nil => rfl
  | cons c ls ih =>
    simp only [List.foldl_cons]
    rw [ih]
    cases hfl : findLast (contributes t) ls with
    | some c' => simp [findLast, hfl]
    | none =>
      simp only [findLast, hfl]
      by_cases hemp : (chartRows c).isEmpty
      · have hcon : contributes t c = false := by
          simp [contributes, hemp]
        simp [hemp, hcon]
      · have hemp' : (chartRows c).isEmpty = false := by
          simpa using hemp
        rw [if_neg (by simp [hemp'])]
        rw [lookupTable_upsert]
        by_cases ht : c.title = t
        · have hcon : contributes t c = true := by
            simp [contributes, hemp', ht]
          simp [ht, hcon]
        · have hcon : contributes t c = false := by
            simp [contributes, ht]
          simp [ht, hcon]

/-- The `convert_to_dataframes` loop keeps the dict keys duplicate-free. -/
theorem convert_fold_nodup (l : List ChartData)
    (acc : List (String × List Row)) (hacc : (acc.map Prod.fst).Nodup) :
    ((l.foldl
        (fun acc c =>
          if (chartRows c).isEmpty then acc
          else upsert acc c.title (tableOf c))
        acc).map Prod.fst).Nodup := by
  induction l generalizing acc with
  | nil => exact hacc
  | cons c ls ih =>
    simp only [List.foldl_cons]
    apply ih
    by_cases hemp : (chartRows c).isEmpty
    · simpa [hemp] using hacc
    · have hemp' : (chartRows c).isEmpty = false := by simpa using hemp
      rw [if_neg (by simp [hemp'])]
      rw [keys_upsert]
      by_cases hk : c.title ∈ acc.map Prod.fst
      · simpa [hk] using hacc
      · rw [if_neg hk]
        rw [← List.concat_eq_append]
        exact List.Nodup.concat hk hacc

/-- C3 (amended): conversion stores at most one table per distinct title:
the dict's key list is duplicate-free, and the table stored under a title
is the table of the *last* chart with that title and a non-empty row
list (so an empty chart stores nothing and an earlier duplicate-titled
chart's rows are overwritten — see the counterexample). -/
theorem convert_one_table_per_title (charts : List ChartData) (t : String) :
    lookupTable t (convert charts)
        = (findLast (contributes t) charts).map tableOf ∧
      ((convert charts).map Prod.fst).Nodup := by
  constructor
  · unfold convert
    rw [convert_fold_lookup]
    cases findLast (contributes t) charts <;> simp [lookupTable]
  · unfold convert
    exact convert_fold_nodup charts [] (by simp)

/-- C3 counterexample: two distinct charts sharing the title "Dup" yield a
single table (the second chart's; the first chart's rows are lost), and a
chart with zero points yields no table at all. -/
theorem convert_not_one_table_per_chart :
    (convert [cDup1, cDup2]).length = 1 ∧
      lookupTable "Dup" (convert [cDup1, cDup2]) = some (tableOf cDup2) ∧
      tableOf cDup1 ≠ tableOf cDup2 ∧
      convert [cEmpty] = [] := by
  refine ⟨by decide, by decide, by decide, by decide⟩

/-- Every formatter is the generic normalize-cast-rename shape,
instantiated with its kind's normalizer and enumeration. -/
theorem formatOf_eq (k : MetricKind) :
    formatOf k = formatWith (normOf k) (enumOf k) := by
  cases k <;> rfl

/-- C4 (amended): every metric kind parses by the same
normalize-then-cast shape, but with one of *two* normalizers — the
energy-awards and AS-awards kinds lower-case and underscore the first
whitespace, while the bids, offers and state-of-charge kinds lower-case
and remap only the exact literal "self schedule" — together with the
kind's enumeration (see the counterexample for the two families
disagreeing). -/
theorem formatter_normalization_families (k : MetricKind)
    (rows : List CsvRow) :
    formatOf k rows = formatWith (normOf k) (enumOf k) rows ∧
      (normOf k = normUnderscore ∨ normOf k = normSelfSched) := by
  constructor
  · rw [formatOf_eq]
  · cases k
    · exact Or.inl rfl
    · exact Or.inr rfl
    · exact Or.inr rfl
    · exact Or.inl rfl
    · exact Or.inr rfl
    · exact Or.inr rfl
    · exact Or.inl rfl
    · exact Or.inr rfl

/-- C4 counterexample: the two normalization families are not the same
function — the claim's whitespace-to-underscore step would reject the
legitimate bid bracket "(-$15, $0]" (its space would become an
underscore, leaving the enumeration), yet `format_ifm_bids` accepts it
unchanged. -/
theorem normalization_not_uniform :
    normOf MetricKind.ifm_as_awards "(-$15, $0]"
        ≠ normOf MetricKind.ifm_bids "(-$15, $0]" ∧
      format_ifm_bids [csvRow 0 "(-$15, $0]" 1] = .ok [mrow 0 "(-$15, $0]" 1] ∧
      replaceFirstWs (lowerStr "(-$15, $0]") ∉ BID_ENUM := by
  refine ⟨by decide, by rfl, by decide⟩

/-- If some row's normalized name is outside the domain, the generic
formatter fails with the first such literal and the domain. -/
theorem formatWith_first_bad (norm : String → String) (domain : List String)
    (rows : List CsvRow)
    (hbad : ∃ r ∈ rows, norm r.series_name ∉ domain) :
    ∃ lit, lit ∉ domain ∧ (∃ r ∈ rows, norm r.series_name = lit) ∧
      formatWith norm domain rows
        = .error { literal := lit, domain := domain } := by
  induction rows with
  | nil => simp at hbad
  | cons r rs ih =>
    by_cases h : norm r.series_name ∈ domain
    · obtain ⟨r', hr', hbad'⟩ := hbad
      rcases List.mem_cons.mp hr' with h1 | h1
      · subst h1
        exact absurd h hbad'
      · obtain ⟨lit, hl1, ⟨r'', hr'', hl2⟩, hl3⟩ := ih ⟨r', h1, hbad'⟩
        refine ⟨lit, hl1, ⟨r'', List.mem_cons_of_mem r hr'', hl2⟩, ?_⟩
        have hfr : (castEnum domain (norm r.series_name)).map
            (fun d => ({ timestamp := r.datetime, dim := d,
                         volume := r.value } : MetricRow))
            = .ok { timestamp := r.datetime, dim := norm r.series_name,
                    volume := r.value } := by
          simp [castEnum, h, Except.map]
        unfold formatWith at hl3 ⊢
        simp only [List.mapM_cons]
        rw [hfr, hl3]
        rfl
    · refine ⟨norm r.series_name, h,
        ⟨r, List.mem_cons_self r rs, rfl⟩, ?_⟩
      have hfr : (castEnum domain (norm r.series_name)).map
          (fun d => ({ timestamp := r.datetime, dim := d,
                       volume := r.value } : MetricRow))
          = .error { literal := norm r.series_name, domain := domain } := by
        simp [castEnum, h, Except.map]
      unfold formatWith
      simp only [List.mapM_cons]
      rw [hfr]
      rfl

/-- C5: for every metric kind, a row whose normalized series name is
outside the kind's enumeration makes the parse fail with an error naming
an offending literal (one actually arising from a row of the file) and
the metric's valid domain; no table is produced, so the row is neither
dropped nor coerced. -/
theorem enum_cast_failure_names_literal (k : MetricKind)
    (rows : List CsvRow)
    (hbad : ∃ r ∈ rows, normOf k r.series_name ∉ enumOf k) :
    ∃ lit, lit ∉ enumOf k ∧ (∃ r ∈ rows, normOf k r.series_name = lit) ∧
      formatOf k rows = .error { literal := lit, domain := enumOf k } := by
  rw [formatOf_eq]
  exact formatWith_first_bad (normOf k) (enumOf k) rows hbad

/-- Witness for C5: an unknown bid literal "zorp" fails the `ifm_bids`
parse with that literal and `BID_ENUM`. -/
theorem enum_cast_failure_witness :
    (∃ r ∈ [csvRow 0 "zorp" 1],
        normOf MetricKind.ifm_bids r.series_name
          ∉ enumOf MetricKind.ifm_bids) ∧
      ∃ lit, lit ∉ enumOf MetricKind.ifm_bids ∧
        (∃ r ∈ [csvRow 0 "zorp" 1],
          normOf MetricKind.ifm_bids r.series_name = lit) ∧
        formatOf MetricKind.ifm_bids [csvRow 0 "zorp" 1]
          = .error { literal := lit, domain := enumOf MetricKind.ifm_bids } :=
  ⟨by decide,
    enum_cast_failure_names_literal MetricKind.ifm_bids
      [csvRow 0 "zorp" 1] (by decide)⟩

/-- C9: the three `fmm_*` formatters are literal aliases of their `ifm_*`
counterparts: they produce identical tables on every input file. -/
theorem fmm_formatters_alias_ifm (rows : List CsvRow) :
    format_fmm_as_awards rows = format_ifm_as_awards rows ∧
      format_fmm_bids rows = format_ifm_bids rows ∧
      format_fmm_offers rows = format_ifm_offers rows :=
  ⟨rfl, rfl, rfl⟩

/-- A key not among the pattern keys is not found. -/
theorem lookupKey_eq_none_of_not_mem (k : String)
    (l : List (String × String)) (h : k ∉ l.map Prod.fst) :
    lookupKey k l = none := by
  induction l with
  | nil => rfl
  | cons a t ih =>
    obtain ⟨ka, va⟩ := a
    simp only [List.map_cons, List.mem_cons] at h
    push_neg at h
    have hne : ¬ka = k := fun hk => h.1 hk.symm
    simp only [lookupKey, if_neg hne]
    exact ih h.2

/-- A key among the pattern keys is found. -/
theorem lookupKey_isSome_of_mem (k : String)
    (l : List (String × String)) (h : k ∈ l.map Prod.fst) :
    ∃ v, lookupKey k l = some v := by
  induction l with
  | nil => simp at h
  | cons a t ih =>
    obtain ⟨ka, va⟩ := a
    by_cases hk : ka = k
    · exact ⟨va, by simp [lookupKey, hk]⟩
    · simp only [List.map_cons, List.mem_cons] at h
      rcases h with h | h
      · exact absurd h.symm hk
      · obtain ⟨v, hv⟩ := ih h
        exact ⟨v, by simp [lookupKey, hk, hv]⟩

/-- C7: an unrecognized dtype makes `collate` fail naming the closed key
set of `FILE_PATTERNS`, and a recognized dtype with an unrecognized
battery type fail naming `storage`/`hybrid` — in both cases for *every*
pair of data roots, i.e. without touching any file. -/
theorem collate_config_errors (dtype btype : String)
    (sfs hfs : List FsEntry) :
    (dtype ∉ FILE_PATTERNS.map Prod.fst →
      collate dtype btype sfs hfs
        = .error (.badDtype (FILE_PATTERNS.map Prod.fst))) ∧
      (dtype ∈ FILE_PATTERNS.map Prod.fst → btype ≠ "storage" →
        btype ≠ "hybrid" →
        collate dtype btype sfs hfs
          = .error (.badBtype ["storage", "hybrid"])) := by
  constructor
  · intro h
    unfold collate
    rw [lookupKey_eq_none_of_not_mem dtype FILE_PATTERNS h]
  · intro h hs hh
    obtain ⟨pat, hpat⟩ := lookupKey_isSome_of_mem dtype FILE_PATTERNS h
    unfold collate
    rw [hpat]
    simp [hs, hh]

/-- Witness for C7: the unknown dtype "solar_awards" and, for the valid
dtype "ifm_bids", the unknown battery type "wind". -/
theorem collate_config_errors_witness :
    ("solar_awards" ∉ FILE_PATTERNS.map Prod.fst ∧
      collate "solar_awards" "storage" [] []
        = .error (.badDtype (FILE_PATTERNS.map Prod.fst))) ∧
      ("ifm_bids" ∈ FILE_PATTERNS.map Prod.fst ∧
        collate "ifm_bids" "wind" [] []
          = .error (.badBtype ["storage", "hybrid"])) :=
  ⟨⟨by decide,
      (collate_config_errors "solar_awards" "storage" [] []).1 (by decide)⟩,
    ⟨by decide,
      (collate_config_errors "ifm_bids" "wind" [] []).2 (by decide)
        (by decide) (by decide)⟩⟩

/-- C10: with a recognized dtype and battery type, when no file of the
selected root matches the metric's pattern, `collate` fails (the
`pl.concat` of an empty frame list raises) instead of returning an empty
dataset. -/
theorem collate_no_matching_files_errors (dtype btype pat : String)
    (sfs hfs : List FsEntry)
    (hd : lookupKey dtype FILE_PATTERNS = some pat)
    (hb : btype = "storage" ∨ btype = "hybrid")
    (hm : ∀ e ∈ (if btype = "storage" then sfs else hfs),
        matchesPattern pat e.name = false) :
    collate dtype btype sfs hfs = .error .emptyConcat := by
  unfold collate
  rw [hd]
  rcases hb with hb | hb
  · subst hb
    simp only [if_pos rfl] at hm
    have hfil : sfs.filter (fun e => matchesPattern pat e.name) = [] :=
      List.filter_eq_nil_iff.mpr (by
        intro e he
        simp [hm e he])
    simp [hfil]
  · subst hb
    have hns : ("hybrid" : String) ≠ "storage" := by decide
    rw [if_neg hns] at hm
    have hfil : hfs.filter (fun e => matchesPattern pat e.name) = [] :=
      List.filter_eq_nil_iff.mpr (by
        intro e he
        simp [hm e he])
    simp [hfil, hns]

/-- Witness for C10: a storage root holding only "readme.txt" has no
match for the `ifm_bids` pattern, and `collate` fails. -/
theorem collate_no_matching_files_witness :
    lookupKey "ifm_bids" FILE_PATTERNS
        = some "_IFM Energy Bid In Capacity - Charge.csv" ∧
      collate "ifm_bids" "storage" [{ name := "readme.txt", rows := [] }] []
        = .error .emptyConcat :=
  ⟨by decide,
    collate_no_matching_files_errors "ifm_bids" "storage"
      "_IFM Energy Bid In Capacity - Charge.csv"
      [{ name := "readme.txt", rows := [] }] [] (by decide)
      (Or.inl rfl) (by decide)⟩

/-- `charsLe` is total. -/
theorem charsLe_total : ∀ a b : List Char,
    charsLe a b = true ∨ charsLe b a = true
  | [], _ => Or.inl rfl
  | _ :: _, [] => Or.inr rfl
  | c :: cs, d :: ds => by
    rcases lt_trichotomy c d with h | h | h
    · left
      simp [charsLe, h]
    · subst h
      rcases charsLe_total cs ds with ih | ih
      · left
        simp [charsLe, lt_irrefl, ih]
      · right
        simp [charsLe, lt_irrefl, ih]
    · right
      simp [charsLe, h]

/-- `charsLe` is transitive. -/
theorem charsLe_trans : ∀ a b c : List Char, charsLe a b = true →
    charsLe b c = true → charsLe a c = true
  | [], _, _, _, _ => rfl
  | _ :: _, [], _, h1, _ => by simp [charsLe] at h1
  | _ :: _, _ :: _, [], _, h2 => by simp [charsLe] at h2
  | x :: xs, y :: ys, z :: zs, h1, h2 => by
    rcases lt_trichotomy x y with hxy | hxy | hxy
    · rcases lt_trichotomy y z with hyz | hyz | hyz
      · simp [charsLe, lt_trans hxy hyz]
      · subst hyz
        simp [charsLe, hxy]
      · simp [charsLe, lt_asymm hyz, hyz] at h2
    · subst hxy
      rcases lt_trichotomy x z with hxz | hxz | hxz
      · simp [charsLe, hxz]
      · subst hxz
        simp only [charsLe, lt_irrefl, if_false] at h1 h2 ⊢
        exact charsLe_trans xs ys zs h1 h2
      · simp [charsLe, lt_asymm hxz, hxz] at h2
    · simp [charsLe, lt_asymm hxy, hxy] at h1

/-- `charsLe` is antisymmetric. -/
theorem charsLe_antisymm : ∀ a b : List Char, charsLe a b = true →
    charsLe b a = true → a = b
  | [], [], _, _ => rfl
  | [], _ :: _, _, h2 => by simp [charsLe] at h2
  | _ :: _, [], h1, _ => by simp [charsLe] at h1
  | x :: xs, y :: ys, h1, h2 => by
    rcases lt_trichotomy x y with h | h | h
    · simp [charsLe, lt_asymm h, h] at h2
    · subst h
      simp only [charsLe, lt_irrefl, if_false] at h1 h2
      rw [charsLe_antisymm xs ys h1 h2]
    · simp [charsLe, lt_asymm h, h] at h1

/-- `strLe` is total. -/
theorem strLe_total (a b : String) : strLe a b = true ∨ strLe b a = true :=
  charsLe_total a.data b.data

/-- `strLe` is transitive. -/
theorem strLe_trans (a b c : String) (h1 : strLe a b = true)
    (h2 : strLe b c = true) : strLe a c = true :=
  charsLe_trans a.data b.data c.data h1 h2

/-- `strLe` is antisymmetric. -/
theorem strLe_antisymm (a b : String) (h1 : strLe a b = true)
    (h2 : strLe b a = true) : a = b := by
  obtain ⟨la⟩ := a
  obtain ⟨lb⟩ := b
  exact congrArg String.mk (charsLe_antisymm la lb h1 h2)

/-- The sort-key comparison, at the propositional level. -/
theorem rowLe_iff (a b : MetricRow) :
    rowLe a b = true ↔
      (a.timestamp < b.timestamp ∨
        (a.timestamp = b.timestamp ∧ strLe a.dim b.dim = true)) := by
  simp [rowLe]

/-- The sort-key comparison is total. -/
theorem rowLe_total (a b : MetricRow) :
    rowLe a b = true ∨ rowLe b a = true := by
  rw [rowLe_iff, rowLe_iff]
  rcases lt_trichotomy a.timestamp b.timestamp with h | h | h
  · exact Or.inl (Or.inl h)
  · rcases strLe_total a.dim b.dim with hd | hd
    · exact Or.inl (Or.inr ⟨h, hd⟩)
    · exact Or.inr (Or.inr ⟨h.symm, hd⟩)
  · exact Or.inr (Or.inl h)

/-- The sort-key comparison is transitive. -/
theorem rowLe_trans (a b c : MetricRow) (h1 : rowLe a b = true)
    (h2 : rowLe b c = true) : rowLe a c = true := by
  rw [rowLe_iff] at h1 h2 ⊢
  rcases h1 with h1 | ⟨ht1, hd1⟩
  · rcases h2 with h2 | ⟨ht2, hd2⟩
    · exact Or.inl (h1.trans h2)
    · exact Or.inl (ht2 ▸ h1)
  · rcases h2 with h2 | ⟨ht2, hd2⟩
    · exact Or.inl (ht1 ▸ h2)
    · exact Or.inr ⟨ht1.trans ht2, strLe_trans _ _ _ hd1 hd2⟩

/-- Mutually `rowLe`-comparable rows agree on the sort key. -/
theorem rowLe_antisymm_keys (a b : MetricRow) (h1 : rowLe a b = true)
    (h2 : rowLe b a = true) :
    a.timestamp = b.timestamp ∧ a.dim = b.dim := by
  rw [rowLe_iff] at h1 h2
  rcases h1 with h1 | ⟨ht1, hd1⟩
  · rcases h2 with h2 | ⟨ht2, hd2⟩
    · exact absurd h1 (not_lt.mpr h2.le)
    · exact absurd h1 (by rw [ht2]; exact lt_irrefl _)
  · rcases h2 with h2 | ⟨ht2, hd2⟩
    · exact absurd h2 (by rw [ht1]; exact lt_irrefl _)
    · exact ⟨ht1, strLe_antisymm _ _ hd1 hd2⟩

/-- Insertion produces a permutation of consing. -/
theorem insertRow_perm (a : MetricRow) (l : List MetricRow) :
    (insertRow a l).Perm (a :: l) := by
  induction l with
  | nil => exact List.Perm.refl _
  | cons b t ih =>
    by_cases h : rowLe a b = true
    · simp [insertRow, h]
    · simp only [insertRow, h, Bool.false_eq_true, if_false]
      exact (ih.cons b).trans (List.Perm.swap a b t)

/-- The key sort permutes its input. -/
theorem sortTable_perm (l : List MetricRow) : (sortTable l).Perm l := by
  induction l with
  | nil => exact List.Perm.refl _
  | cons a t ih =>
    exact (insertRow_perm a (sortTable t)).trans (ih.cons a)

/-- Insertion preserves `rowLe`-sortedness. -/
theorem insertRow_pairwise (a : MetricRow) (l : List MetricRow)
    (hl : l.Pairwise (fun x y => rowLe x y = true)) :
    (insertRow a l).Pairwise (fun x y => rowLe x y = true) := by
  induction l with
  | nil => simp [insertRow]
  | cons b t ih =>
    rcases List.pairwise_cons.mp hl with ⟨hb, ht⟩
    by_cases h : rowLe a b = true
    · rw [insertRow, if_pos h]
      refine List.pairwise_cons.mpr ⟨?_, hl⟩
      intro x hx
      rcases List.mem_cons.mp hx with rfl | hx
      · exact h
      · exact rowLe_trans a b x h (hb x hx)
    · rw [insertRow, if_neg (by simpa using h)]
      refine List.pairwise_cons.mpr ⟨?_, ih ht⟩
      intro x hx
      rcases List.mem_cons.mp ((insertRow_perm a t).mem_iff.mp hx)
        with rfl | hx
      · rcases rowLe_total x b with h' | h'
        · exact absurd h' h
        · exact h'
      · exact hb x hx

/-- The key sort produces a `rowLe`-sorted list. -/
theorem sortTable_pairwise (l : List MetricRow) :
    (sortTable l).Pairwise (fun x y => rowLe x y = true) := by
  induction l with
  | nil => simp [sortTable]
  | cons a t ih => exact insertRow_pairwise a (sortTable t) ih

/-- Two sorted permutations of each other are equal when the sort key is
injective on their elements. -/
theorem sorted_eq_of_perm_of_injkeys :
    ∀ l₁ l₂ : List MetricRow, l₁.Perm l₂ →
      l₁.Pairwise (fun x y => rowLe x y = true) →
      l₂.Pairwise (fun x y => rowLe x y = true) →
      (∀ a ∈ l₁, ∀ b ∈ l₁,
        a.timestamp = b.timestamp → a.dim = b.dim → a = b) →
      l₁ = l₂
  | [], l₂, hp, _, _, _ => (hp.nil_eq).symm ▸ rfl
  | a :: t₁, [], hp, _, _, _ => absurd hp.symm.nil_eq (by simp)
  | a :: t₁, b :: t₂, hp, hs₁, hs₂, hinj => by
    have hab : a = b := by
      by_contra hne
      have ha2 : a ∈ b :: t₂ := hp.mem_iff.mp (List.mem_cons_self a t₁)
      have hat2 : a ∈ t₂ := by
        rcases List.mem_cons.mp ha2 with h | h
        · exact absurd h hne
        · exact h
      have hb1 : b ∈ a :: t₁ := hp.mem_iff.mpr (List.mem_cons_self b t₂)
      have hbt1 : b ∈ t₁ := by
        rcases List.mem_cons.mp hb1 with h | h
        · exact absurd h.symm hne
        · exact h
      have hle1 : rowLe a b = true :=
        (List.pairwise_cons.mp hs₁).1 b hbt1
      have hle2 : rowLe b a = true :=
        (List.pairwise_cons.mp hs₂).1 a hat2
      obtain ⟨hts, hds⟩ := rowLe_antisymm_keys a b hle1 hle2
      exact hne (hinj a (List.mem_cons_self a t₁) b
        (List.mem_cons_of_mem a hbt1) hts hds)
    subst hab
    have htp : t₁.Perm t₂ := hp.cons_inv
    have ht₁ := sorted_eq_of_perm_of_injkeys t₁ t₂ htp
      (List.pairwise_cons.mp hs₁).2 (List.pairwise_cons.mp hs₂).2
      (fun x hx y hy => hinj x (List.mem_cons_of_mem a hx) y
        (List.mem_cons_of_mem a hy))
    rw [ht₁]

/-- A permutation of the outer file list permutes the concatenation. -/
theorem flatten_perm_of_perm {l₁ l₂ : List (List MetricRow)}
    (h : l₁.Perm l₂) : l₁.flatten.Perm l₂.flatten := by
  induction h with
  | nil => exact List.Perm.refl _
  | cons x _ ih =>
    simpa only [List.flatten_cons] using ih.append_left x
  | swap x y t =>
    simp only [List.flatten_cons, ← List.append_assoc]
    exact (List.perm_append_comm).append_right t.flatten
  | trans _ _ ih1 ih2 => exact ih1.trans ih2

/-- C6 (amended): collation is order-independent over the input files
whenever no two distinct rows share the full sort key
`(timestamp, market-or-service)` — the final sort then determines the
dataset uniquely.  (Duplicate keys carrying different volumes break
sequence-level order independence: see the counterexample.) -/
theorem collation_order_independent (tables tbls : List (List MetricRow))
    (hperm : tables.Perm tbls)
    (hinj : ∀ a ∈ tables.flatten, ∀ b ∈ tables.flatten,
        a.timestamp = b.timestamp → a.dim = b.dim → a = b) :
    collateRows tables = collateRows tbls := by
  unfold collateRows
  have hj : tables.flatten.Perm tbls.flatten := flatten_perm_of_perm hperm
  refine sorted_eq_of_perm_of_injkeys _ _ ?_ (sortTable_pairwise _)
    (sortTable_pairwise _) ?_
  · exact ((sortTable_perm _).trans hj).trans (sortTable_perm _).symm
  · intro a ha b hb
    exact hinj a ((sortTable_perm _).mem_iff.mp ha)
      b ((sortTable_perm _).mem_iff.mp hb)

/-- Witness for C6: two single-row files with distinct keys collate to
the same sorted dataset in either order. -/
theorem collation_order_independent_witness :
    ([[mrow 1 "ifm" 5], [mrow 0 "rtd" 7]].Perm
        [[mrow 0 "rtd" 7], [mrow 1 "ifm" 5]]) ∧
      collateRows [[mrow 1 "ifm" 5], [mrow 0 "rtd" 7]]
        = collateRows [[mrow 0 "rtd" 7], [mrow 1 "ifm" 5]] :=
  ⟨by decide,
    collation_order_independent [[mrow 1 "ifm" 5], [mrow 0 "rtd" 7]]
      [[mrow 0 "rtd" 7], [mrow 1 "ifm" 5]] (by decide) (by decide)⟩

/-- C6 counterexample: two files each holding one row with the *same*
`(timestamp, service)` key but different volumes collate to different
row sequences under the two file orders — the sort compares only the key
columns, so the duplicate-key rows keep their concatenation order. -/
theorem collation_not_order_independent_on_duplicate_keys :
    ([[mrow 0 "spin" 1], [mrow 0 "spin" 2]].Perm
        [[mrow 0 "spin" 2], [mrow 0 "spin" 1]]) ∧
      collateRows [[mrow 0 "spin" 1], [mrow 0 "spin" 2]]
        ≠ collateRows [[mrow 0 "spin" 2], [mrow 0 "spin" 1]] := by
  refine ⟨by decide, by decide⟩

end Esr
